import Mathlib

/-!
Verification of the brother_pt raster encoder and print-session logic.

The definitions below are a shallow embedding of src/brother_pt/raster.py and
src/brother_pt/printer.py.  Byte strings and bytearrays become `List Nat`
(each element a byte value), Python exceptions become `Except` errors, and
the lookup tables and command builders that live in the cmd module (which is
referenced by the sources but absent from src/) are modelled from the
specification as explicit parameters.
-/

/-- Equality of `Except` values is decidable when it is on both components. -/
instance {ε α : Type} [DecidableEq ε] [DecidableEq α] : DecidableEq (Except ε α)
  | .error e, .error f => decidable_of_iff (e = f) (by simp)
  | .error _, .ok _ => isFalse (by simp)
  | .ok _, .error _ => isFalse (by simp)
  | .ok a, .ok b => decidable_of_iff (a = b) (by simp)

namespace BrotherPt

/-- Error values of the raster module.  `indexError` models the Python
IndexError raised by an out-of-range bytearray access; `alignmentError` is the
error named by the specification for misaligned raster buffers (the source has
no corresponding raise site); `dimensionError` models the AttributeError
raised by prepare_image, carrying the expected height and the actual width and
height; `unsupportedColorSpace` models the AttributeError raised by
select_raster_channel for an unsupported color mode. -/
inductive RasterError where
  | indexError : RasterError
  | alignmentError : RasterError
  | dimensionError (expected width height : Nat) : RasterError
  | unsupportedColorSpace : RasterError
  deriving DecidableEq

/-- Embedding of `buffer[i]` on a Python bytearray: the value at index `i`,
or an IndexError when `i` is out of range. -/
def byteAt (buffer : List Nat) (i : Nat) : Except RasterError Nat :=
  match buffer[i]? with
  | some v => .ok v
  | none => .error .indexError

/-- Embedding of the inner loop of compress_buffer (raster.py lines 69-73):
for each `j` in the list, read `buffer[i + j]` and set bit `7 - j` of the
accumulator when the byte is non-zero. -/
def innerLoop (buffer : List Nat) (i : Nat) : List Nat → Nat → Except RasterError Nat
  | [], byte => .ok byte
  | j :: js, byte =>
    match byteAt buffer (i + j) with
    | .error e => .error e
    | .ok value => innerLoop buffer i js (if 0 < value then byte ||| (1 <<< (7 - j)) else byte)

/-- Embedding of the outer loop of compress_buffer (raster.py lines 66-75):
one packed byte per group start index. -/
def outerLoop (buffer : List Nat) : List Nat → Except RasterError (List Nat)
  | [] => .ok []
  | i :: is =>
    match innerLoop buffer i (List.range 8) 0 with
    | .error e => .error e
    | .ok byte =>
      match outerLoop buffer is with
      | .error e => .error e
      | .ok bits => .ok (byte :: bits)

/-- Embedding of compress_buffer (raster.py lines 63-76).  The Python
`range(0, len(buffer), 8)` is the list `[0, 8, 16, ...]` with
`(len + 7) / 8` elements. -/
def compress_buffer (buffer : List Nat) : Except RasterError (List Nat) :=
  outerLoop buffer ((List.range ((buffer.length + 7) / 8)).map (· * 8))

/-- The value the inner loop accumulates over one 8-byte group, written as a
pure fold. -/
def groupVal (buffer : List Nat) (i : Nat) : Nat :=
  (List.range 8).foldl
    (fun byte j => if 0 < buffer.getD (i + j) 0 then byte ||| (1 <<< (7 - j)) else byte) 0

lemma innerLoop_ok (buffer : List Nat) (i : Nat) (js : List Nat) :
    ∀ byte, (∀ j ∈ js, i + j < buffer.length) →
    innerLoop buffer i js byte =
      .ok (js.foldl (fun b j => if 0 < buffer.getD (i + j) 0 then b ||| (1 <<< (7 - j)) else b)
        byte) := by
  induction js with
  | nil => intro byte _; rfl
  | cons j js ih =>
    intro byte h
    have hj : i + j < buffer.length := h j (by simp)
    have hb : byteAt buffer (i + j) = .ok (buffer.getD (i + j) 0) := by
      simp [byteAt, List.getElem?_eq_getElem hj, List.getD_eq_getElem?_getD]
    simp only [innerLoop, hb, List.foldl_cons]
    exact ih _ (fun j' hj' => h j' (by simp [hj']))

lemma innerLoop_err (buffer : List Nat) (i : Nat) (js : List Nat) :
    ∀ byte, (∃ j ∈ js, buffer.length ≤ i + j) →
    innerLoop buffer i js byte = .error .indexError := by
  induction js with
  | nil => intro byte h; simp at h
  | cons j js ih =>
    intro byte h
    by_cases hj : buffer.length ≤ i + j
    · have hb : byteAt buffer (i + j) = .error .indexError := by
        simp [byteAt, List.getElem?_eq_none hj]
      simp only [innerLoop, hb]
    · have hj' : i + j < buffer.length := by omega
      have hb : byteAt buffer (i + j) = .ok (buffer.getD (i + j) 0) := by
        simp [byteAt, List.getElem?_eq_getElem hj', List.getD_eq_getElem?_getD]
      simp only [innerLoop, hb]
      apply ih
      rcases h with ⟨j₀, hmem, hge⟩
      rcases List.mem_cons.mp hmem with rfl | hmem'
      · omega
      · exact ⟨j₀, hmem', hge⟩

lemma outerLoop_ok (buffer : List Nat) (is : List Nat)
    (h : ∀ i ∈ is, i + 7 < buffer.length) :
    outerLoop buffer is = .ok (is.map (groupVal buffer)) := by
  induction is with
  | nil => rfl
  | cons i is ih =>
    have hb : ∀ j ∈ List.range 8, i + j < buffer.length := by
      intro j hj
      have hj8 : j < 8 := List.mem_range.mp hj
      have := h i (by simp)
      omega
    have hin := innerLoop_ok buffer i (List.range 8) 0 hb
    simp only [outerLoop, hin, ih (fun i' hi' => h i' (by simp [hi'])), List.map_cons]
    rfl

lemma outerLoop_append_err (buffer : List Nat) (is₁ is₂ : List Nat) :
    ∀ bs e, outerLoop buffer is₁ = .ok bs → outerLoop buffer is₂ = .error e →
    outerLoop buffer (is₁ ++ is₂) = .error e := by
  induction is₁ with
  | nil => intro bs e _ h2; simpa using h2
  | cons i is₁ ih =>
    intro bs e h1 h2
    rw [List.cons_append]
    simp only [outerLoop] at h1 ⊢
    cases hi : innerLoop buffer i (List.range 8) 0 with
    | error e' => rw [hi] at h1; simp at h1
    | ok byte =>
      rw [hi] at h1
      simp only [] at h1 ⊢
      cases ho : outerLoop buffer is₁ with
      | error e' => rw [ho] at h1; simp at h1
      | ok bs' => rw [ih bs' e ho h2]

lemma foldl_or_testBit (buffer : List Nat) (m : Nat) (js : List Nat) :
    ∀ (acc k : Nat),
      Nat.testBit
        (js.foldl (fun byte j =>
          if 0 < buffer.getD (m + j) 0 then byte ||| (1 <<< (7 - j)) else byte) acc) k
      = (Nat.testBit acc k ||
          js.any fun j => decide (0 < buffer.getD (m + j) 0) && decide (7 - j = k)) := by
  induction js with
  | nil => intro acc k; simp
  | cons j js ih =>
    intro acc k
    simp only [List.foldl_cons, List.any_cons, ih]
    by_cases hc : 0 < buffer.getD (m + j) 0
    · have hd : decide (0 < buffer.getD (m + j) 0) = true := decide_eq_true hc
      simp only [if_pos hc, hd, Bool.true_and, Nat.testBit_or, Nat.one_shiftLeft,
        Nat.testBit_two_pow]
      rw [Bool.or_assoc]
    · have hd : decide (0 < buffer.getD (m + j) 0) = false := decide_eq_false hc
      simp only [if_neg hc, hd, Bool.false_and, Bool.false_or]

lemma groupVal_testBit (buffer : List Nat) (m j : Nat) (hj : j < 8) :
    (groupVal buffer m).testBit (7 - j) =
      decide (0 < buffer.getD (m + j) 0) := by
  unfold groupVal
  rw [foldl_or_testBit]
  simp only [Nat.zero_testBit, Bool.false_or]
  rw [show List.range 8 = [0, 1, 2, 3, 4, 5, 6, 7] from rfl]
  interval_cases j <;>
    simp [List.any_cons, Nat.sub_self, decide_eq_true_eq]

/-- Claim C1: for every input buffer whose length is a multiple of 8,
compress_buffer returns a buffer of exactly length/8 bytes in which output
byte i has bit (7 - j) set if and only if input byte 8*i + j is non-zero
(bit 7 corresponds to the first byte of each 8-byte group, MSB-first). -/
theorem claim_C1 (buffer : List Nat) (n : Nat) (h : buffer.length = 8 * n) :
    ∃ out, compress_buffer buffer = .ok out ∧ out.length = n ∧
      ∀ i, i < n → ∀ j, j < 8 →
        ((out.getD i 0).testBit (7 - j) = true ↔ 0 < buffer.getD (8 * i + j) 0) := by
  have hcount : (buffer.length + 7) / 8 = n := by omega
  have hbounds : ∀ m ∈ (List.range n).map (· * 8), m + 7 < buffer.length := by
    intro m hm
    rcases List.mem_map.mp hm with ⟨k, hk, rfl⟩
    have := List.mem_range.mp hk
    omega
  have hout : compress_buffer buffer =
      .ok (((List.range n).map (· * 8)).map (groupVal buffer)) := by
    rw [compress_buffer, hcount, outerLoop_ok buffer _ hbounds]
  refine ⟨_, hout, by simp, ?_⟩
  intro i hi j hj
  have hget : (((List.range n).map (· * 8)).map (groupVal buffer)).getD i 0 =
      groupVal buffer (8 * i) := by
    rw [List.getD_eq_getElem?_getD]
    simp [List.getElem?_map, List.getElem?_range hi, Nat.mul_comm]
  rw [hget, groupVal_testBit buffer (8 * i) j hj, decide_eq_true_eq]

/-- Witness for claim C1 at the concrete buffer [5,0,0,0,0,0,0,1]. -/
theorem claim_C1_witness :
    ∃ out, compress_buffer [5, 0, 0, 0, 0, 0, 0, 1] = .ok out ∧ out.length = 1 ∧
      ∀ i, i < 1 → ∀ j, j < 8 →
        ((out.getD i 0).testBit (7 - j) = true ↔
          0 < ([5, 0, 0, 0, 0, 0, 0, 1] : List Nat).getD (8 * i + j) 0) :=
  claim_C1 [5, 0, 0, 0, 0, 0, 0, 1] 1 (by decide)

/-- Counterexample to claim C8 as stated: on the one-byte buffer [1] the
source compress_buffer fails with the index error raised by reading past the
end of the final partial group, not with the AlignmentError the specification
names. -/
theorem claim_C8_counterexample :
    compress_buffer [1] = .error .indexError ∧
      RasterError.indexError ≠ RasterError.alignmentError := by
  exact ⟨by decide, by decide⟩

/-- Claim C8 (amended): for every input buffer whose length is not a multiple
of 8, compress_buffer fails - with the index error produced by reading past
the end of the final partial 8-byte group - rather than silently truncating
that group; the source has no dedicated AlignmentError check. -/
theorem claim_C8 (buffer : List Nat) (h : ¬ (8 ∣ buffer.length)) :
    compress_buffer buffer = .error .indexError := by
  have hcount : (buffer.length + 7) / 8 = buffer.length / 8 + 1 := by omega
  rw [compress_buffer, hcount, List.range_succ, List.map_append]
  have hbounds : ∀ m ∈ (List.range (buffer.length / 8)).map (· * 8),
      m + 7 < buffer.length := by
    intro m hm
    rcases List.mem_map.mp hm with ⟨k, hk, rfl⟩
    have := List.mem_range.mp hk
    omega
  have htail : outerLoop buffer [buffer.length / 8 * 8] = .error .indexError := by
    have hin : innerLoop buffer (buffer.length / 8 * 8) (List.range 8) 0 =
        .error .indexError := by
      apply innerLoop_err
      exact ⟨buffer.length % 8, List.mem_range.mpr (by omega), by omega⟩
    simp only [outerLoop, hin]
  exact outerLoop_append_err buffer _ _ _ _ (outerLoop_ok buffer _ hbounds) htail

/-- Witness for the amended claim C8 at the concrete buffer [1]. -/
theorem claim_C8_witness : compress_buffer [1] = .error .indexError :=
  claim_C8 [1] (by decide)

/-- The PIL color modes distinguished by select_raster_channel: 1-bit,
grayscale, paletted, RGB, RGBA, and any other mode name. -/
inductive Mode where
  | one : Mode
  | L : Mode
  | P : Mode
  | RGB : Mode
  | RGBA : Mode
  | other (name : String) : Mode
  deriving DecidableEq

/-- Model of the external PIL bitmap collaborator: a color mode, dimensions,
per-pixel channel samples (one entry per band, so a single-band pixel is a
one-element list), the transparency entry of the image info dictionary, and
the palette of a paletted image (index to RGB samples). -/
structure Image where
  mode : Mode
  width : Nat
  height : Nat
  px : Nat → Nat → List Nat
  transparency : Option Nat
  palette : Nat → List Nat

/-- Modelled from the spec: the media-width lookup table of the cmd module
(absent from src/), giving the print-head margin and the expected printable
pixel height for each media width. -/
structure MediaTable where
  margin : Nat → Nat
  to_print_width : Nat → Nat

/-- Model of PIL transpose(ROTATE_90): a 90 degree counterclockwise rotation;
the new pixel at (x, y) is the old pixel at (width - 1 - y, x). -/
def rotate90 (img : Image) : Image :=
  { img with
    width := img.height
    height := img.width
    px := fun x y => img.px (img.width - 1 - y) x }

/-- Embedding of make_fit (raster.py lines 21-28): pass the image through
when its height equals the expected height, rotate when only its width does,
and fail (None) otherwise. -/
def make_fit (tbl : MediaTable) (image : Image) (media_width : Nat) : Option Image :=
  let expected_height := tbl.to_print_width media_width
  if image.height ≠ expected_height then
    if image.width ≠ expected_height then none
    else some (rotate90 image)
  else some image

/-- Embedding of has_transparency (raster.py lines 31-38) for the cases the
pipeline reaches: true exactly when the image info carries a transparency
entry. -/
def has_transparency (img : Image) : Bool :=
  img.transparency.isSome

/-- Model of PIL point: apply a function to every sample of every pixel. -/
def point (f : Nat → Nat) (img : Image) : Image :=
  { img with px := fun x y => (img.px x y).map f }

/-- Model of PIL convert to grayscale for RGB and RGBA pixels: an external
collaborator, modelled as an arbitrary per-pixel luma function applied to
the first three channel samples. -/
def convertL (luma : Nat → Nat → Nat → Nat) (img : Image) : Image :=
  { img with
    mode := Mode.L
    px := fun x y =>
      match img.px x y with
      | r :: g :: b :: _ => [luma r g b]
      | _ => [0] }

/-- Model of PIL convert from a paletted image to RGB or RGBA: replace each
palette index by its palette entry, with an alpha sample of 0 exactly at the
transparency index when converting to RGBA. -/
def convertPalette (img : Image) (withAlpha : Bool) : Image :=
  { img with
    mode := if withAlpha then Mode.RGBA else Mode.RGB
    px := fun x y =>
      let idx := (img.px x y).headD 0
      let rgb := img.palette idx
      if withAlpha then rgb ++ [if img.transparency = some idx then 0 else 255]
      else rgb }

/-- Embedding of select_raster_channel (raster.py lines 41-59): paletted
images convert first; 1-bit images pass through; grayscale thresholds at the
brightest value; RGB and RGBA convert to grayscale then threshold at the
mid-point; anything else raises. -/
def select_raster_channel (luma : Nat → Nat → Nat → Nat) (image : Image) :
    Except RasterError Image :=
  let image :=
    if image.mode = Mode.P then
      if has_transparency image then convertPalette image true
      else convertPalette image false
    else image
  if image.mode = Mode.one then .ok image
  else if image.mode = Mode.L then
    .ok (point (fun x => if x < 0xFF then 0xFF else 0) image)
  else if image.mode = Mode.RGB ∨ image.mode = Mode.RGBA then
    .ok (point (fun x => if x < 0x80 then 0xFF else 0) (convertL luma image))
  else .error .unsupportedColorSpace

/-- Embedding of prepare_image (raster.py lines 79-89): fit the image to the
tape, raising the dimension error with the expected height and the original
width and height when neither axis matches, then normalize the color space. -/
def prepare_image (tbl : MediaTable) (luma : Nat → Nat → Nat → Nat)
    (image : Image) (media_width : Nat) : Except RasterError Image :=
  match make_fit tbl image media_width with
  | none =>
    .error (.dimensionError (tbl.to_print_width media_width) image.width image.height)
  | some fitted => select_raster_channel luma fitted

/-- Python truthiness of a getpixel result: a single-band value is truthy
when non-zero; a multi-band tuple is a non-empty tuple, hence always truthy. -/
def pyTruthy : List Nat → Bool
  | [] => false
  | [v] => v ≠ 0
  | _ :: _ :: _ => true

/-- The bytes one column contributes to the raster buffer (raster.py lines
97-106): the leading margin of zero bytes, one 0xFF or 0x00 byte per row,
and the trailing margin of zero bytes. -/
def columnBytes (tbl : MediaTable) (img : Image) (media_width c : Nat) : List Nat :=
  List.replicate (tbl.margin media_width) 0 ++
    (((List.range img.height).map fun row => if pyTruthy (img.px c row) then 0xFF else 0x00) ++
      List.replicate (tbl.margin media_width) 0)

/-- The uncompressed raster buffer built by raster_image (raster.py lines
92-106): the columns in order. -/
def rasterBuffer (tbl : MediaTable) (img : Image) (media_width : Nat) : List Nat :=
  ((List.range img.width).map (columnBytes tbl img media_width)).flatten

/-- Embedding of raster_image (raster.py lines 92-108): the 8:1 bit-packed
compression of the uncompressed raster buffer. -/
def raster_image (tbl : MediaTable) (img : Image) (media_width : Nat) :
    Except RasterError (List Nat) :=
  compress_buffer (rasterBuffer tbl img media_width)

/-- A concrete luma function (the ITU-R 601-2 weights PIL documents) used by
the witnesses. -/
def testLuma : Nat → Nat → Nat → Nat :=
  fun r g b => (r * 299 + g * 587 + b * 114) / 1000

/-- A concrete media table used by the witnesses: margin 3 and printable
height 2 for every media width, so one column is 3 + 2 + 3 = 8 bytes. -/
def testTbl : MediaTable :=
  { margin := fun _ => 3, to_print_width := fun _ => 2 }

/-- A concrete 2 x 2 1-bit image used by the witnesses. -/
def imgSquare : Image :=
  { mode := Mode.one, width := 2, height := 2, px := fun _ _ => [1],
    transparency := none, palette := fun _ => [0, 0, 0] }

/-- A concrete 5 x 7 image fitting neither axis of testTbl, used by the
witnesses. -/
def imgBad : Image :=
  { mode := Mode.one, width := 5, height := 7, px := fun _ _ => [1],
    transparency := none, palette := fun _ => [0, 0, 0] }

/-- A concrete 1 x 2 grayscale image of constant sample 3, used by the
witnesses. -/
def imgL : Image :=
  { mode := Mode.L, width := 1, height := 2, px := fun _ _ => [3],
    transparency := none, palette := fun _ => [0, 0, 0] }

/-- Claim C3: prepare_image passes the bitmap through with its orientation
unchanged when its height equals the expected printable height, rotates it
90 degrees when only its width equals the expected height, and fails with
the dimension error reporting the expected and actual dimensions when
neither matches. -/
theorem claim_C3 (tbl : MediaTable) (luma : Nat → Nat → Nat → Nat)
    (img : Image) (mw : Nat) :
    (img.height = tbl.to_print_width mw →
      prepare_image tbl luma img mw = select_raster_channel luma img) ∧
    (img.height ≠ tbl.to_print_width mw → img.width = tbl.to_print_width mw →
      prepare_image tbl luma img mw = select_raster_channel luma (rotate90 img)) ∧
    (img.height ≠ tbl.to_print_width mw → img.width ≠ tbl.to_print_width mw →
      prepare_image tbl luma img mw =
        .error (.dimensionError (tbl.to_print_width mw) img.width img.height)) := by
  refine ⟨fun hh => ?_, fun hh hw => ?_, fun hh hw => ?_⟩
  · simp [prepare_image, make_fit, hh]
  · simp [prepare_image, make_fit, hh, hw]
  · simp [prepare_image, make_fit, hh, hw]

/-- Witness for claim C3 at a concrete image fitting neither axis. -/
theorem claim_C3_witness :
    prepare_image testTbl testLuma imgBad 9 =
      .error (.dimensionError 2 5 7) :=
  (claim_C3 testTbl testLuma imgBad 9).2.2 (by decide) (by decide)

/-- Claim C10: for a square bitmap whose width and height both equal the
expected printable height, prepare_image passes it through without rotation;
the height check takes precedence over the width check. -/
theorem claim_C10 (tbl : MediaTable) (luma : Nat → Nat → Nat → Nat)
    (img : Image) (mw : Nat)
    (hh : img.height = tbl.to_print_width mw)
    (hw : img.width = tbl.to_print_width mw) :
    make_fit tbl img mw = some img ∧
      prepare_image tbl luma img mw = select_raster_channel luma img := by
  constructor <;> simp [prepare_image, make_fit, hh]

/-- Witness for claim C10 at a concrete square image. -/
theorem claim_C10_witness :
    make_fit testTbl imgSquare 9 = some imgSquare ∧
      prepare_image testTbl testLuma imgSquare 9 =
        select_raster_channel testLuma imgSquare :=
  claim_C10 testTbl testLuma imgSquare 9 (by decide) (by decide)

/-- Claim C4: color-space normalization maps, per pixel, only the brightest
grayscale value to background (empty sample 0) and all others to ink (0xFF);
maps RGB and RGBA pixels through grayscale conversion and thresholds at the
mid-point (values at or above 0x80 become background); accepts the 1-bit and
paletted modes; and fails with the unsupported-color-space error on every
other mode. -/
theorem claim_C4 (luma : Nat → Nat → Nat → Nat) (img : Image) (x y : Nat) :
    (img.mode = Mode.L → ∀ v, img.px x y = [v] → v ≤ 0xFF →
      ∃ out, select_raster_channel luma img = .ok out ∧
        (out.px x y = [0] ↔ v = 0xFF) ∧ (v ≠ 0xFF → out.px x y = [0xFF])) ∧
    (img.mode = Mode.RGB ∨ img.mode = Mode.RGBA →
      ∀ r g b rest, img.px x y = r :: g :: b :: rest →
      ∃ out, select_raster_channel luma img = .ok out ∧
        (out.px x y = [0] ↔ 0x80 ≤ luma r g b) ∧
        (luma r g b < 0x80 → out.px x y = [0xFF])) ∧
    (img.mode = Mode.one → select_raster_channel luma img = .ok img) ∧
    (img.mode = Mode.P → ∃ out, select_raster_channel luma img = .ok out) ∧
    (∀ s, img.mode = Mode.other s →
      select_raster_channel luma img = .error .unsupportedColorSpace) := by
  refine ⟨?_, ?_, ?_, ?_, ?_⟩
  · intro hmode v hpx hv
    refine ⟨point (fun s => if s < 0xFF then 0xFF else 0) img,
      by simp [select_raster_channel, hmode], ?_, ?_⟩ <;>
      by_cases hlt : v < 0xFF <;>
        simp [point, hpx, hlt] <;> omega
  · intro hmode r g b rest hpx
    rcases hmode with hmode | hmode <;>
    · refine ⟨point (fun s => if s < 0x80 then 0xFF else 0) (convertL luma img),
        by simp [select_raster_channel, hmode], ?_, ?_⟩ <;>
        by_cases hlt : luma r g b < 0x80 <;>
          simp [point, convertL, hpx, hlt] <;> omega
  · intro hmode
    simp [select_raster_channel, hmode]
  · intro hmode
    by_cases htr : has_transparency img
    · exact ⟨point (fun s => if s < 0x80 then 0xFF else 0)
          (convertL luma (convertPalette img true)),
        by simp [select_raster_channel, hmode, htr, convertPalette]⟩
    · exact ⟨point (fun s => if s < 0x80 then 0xFF else 0)
          (convertL luma (convertPalette img false)),
        by simp [select_raster_channel, hmode, htr, convertPalette]⟩
  · intro s hmode
    simp [select_raster_channel, hmode]

/-- Witness for claim C4 at a concrete grayscale image with sample 3. -/
theorem claim_C4_witness :
    ∃ out, select_raster_channel testLuma imgL = .ok out ∧
      (out.px 0 0 = [0] ↔ (3 : Nat) = 0xFF) ∧
      ((3 : Nat) ≠ 0xFF → out.px 0 0 = [0xFF]) :=
  (claim_C4 testLuma imgL 0 0).1 rfl 3 rfl (by decide)

lemma getD_replicate_zero (n m : Nat) (h : m < n) :
    (List.replicate n (0 : Nat)).getD m 0 = 0 := by
  simp [List.getD_eq_getElem?_getD, List.getElem?_replicate, h]

lemma getD_map_range (f : Nat → Nat) (h r : Nat) (hr : r < h) :
    ((List.range h).map f).getD r 0 = f r := by
  rw [List.getD_eq_getElem?_getD]
  simp [List.getElem?_map, List.getElem?_range hr]

lemma flatten_getD (chunks : List (List Nat)) (L : Nat)
    (hL : ∀ ch ∈ chunks, ch.length = L) :
    ∀ c o, c < chunks.length → o < L →
      chunks.flatten.getD (c * L + o) 0 = (chunks.getD c []).getD o 0 := by
  induction chunks with
  | nil => intro c o hc _; simp at hc
  | cons ch chunks ih =>
    intro c o hc ho
    have hch : ch.length = L := hL ch (by simp)
    cases c with
    | zero =>
      simp only [Nat.zero_mul, Nat.zero_add, List.flatten_cons]
      rw [List.getD_append _ _ _ _ (by omega)]
      rfl
    | succ c =>
      simp only [List.flatten_cons]
      have hidx : (c + 1) * L + o = ch.length + (c * L + o) := by rw [hch]; ring
      rw [hidx, List.getD_append_right _ _ _ _ (by omega), Nat.add_sub_cancel_left]
      exact ih (fun ch' h' => hL ch' (by simp [h'])) c o (by simpa using hc) ho

lemma columnBytes_length (tbl : MediaTable) (img : Image) (mw c : Nat) :
    (columnBytes tbl img mw c).length = 2 * tbl.margin mw + img.height := by
  simp [columnBytes]
  omega

lemma rasterBuffer_chunk (tbl : MediaTable) (img : Image) (mw c : Nat)
    (hc : c < img.width) :
    (((List.range img.width).map (columnBytes tbl img mw)).getD c []) =
      columnBytes tbl img mw c := by
  rw [List.getD_eq_getElem?_getD]
  simp [List.getElem?_map, List.getElem?_range hc]

/-- Claim C2: raster_image builds an uncompressed buffer of length
width * (2 * margin + height) in which, for each column c and row r, the byte
at index c * (2 * margin + height) + margin + r is 0xFF exactly when the
pixel at (c, r) is ink (truthy), every byte of the leading and trailing
margin of each column is 0x00, and the returned value is the 8:1 bit-packed
compression of this buffer. -/
theorem claim_C2 (tbl : MediaTable) (img : Image) (mw c r k : Nat)
    (hc : c < img.width) (hr : r < img.height) (hk : k < tbl.margin mw) :
    (rasterBuffer tbl img mw).length =
        img.width * (2 * tbl.margin mw + img.height) ∧
    (rasterBuffer tbl img mw).getD
        (c * (2 * tbl.margin mw + img.height) + tbl.margin mw + r) 0 =
      (if pyTruthy (img.px c r) then 0xFF else 0x00) ∧
    (rasterBuffer tbl img mw).getD
        (c * (2 * tbl.margin mw + img.height) + k) 0 = 0 ∧
    (rasterBuffer tbl img mw).getD
        (c * (2 * tbl.margin mw + img.height) + tbl.margin mw + img.height + k) 0
      = 0 ∧
    raster_image tbl img mw = compress_buffer (rasterBuffer tbl img mw) := by
  set m := tbl.margin mw with hm
  set L := 2 * m + img.height with hL
  have hlens : ∀ ch ∈ (List.range img.width).map (columnBytes tbl img mw),
      ch.length = L := by
    intro ch hch
    rcases List.mem_map.mp hch with ⟨c', _, rfl⟩
    exact columnBytes_length tbl img mw c'
  have hclen : ((List.range img.width).map (columnBytes tbl img mw)).length =
      img.width := by simp
  refine ⟨?_, ?_, ?_, ?_, rfl⟩
  · rw [rasterBuffer, List.length_flatten]
    have hrepl : ((List.range img.width).map (columnBytes tbl img mw)).map
        List.length = List.replicate img.width L := by
      refine List.eq_replicate_iff.mpr ⟨by simp, ?_⟩
      intro a ha
      rcases List.mem_map.mp ha with ⟨ch, hch, rfl⟩
      exact hlens ch hch
    rw [hrepl, List.sum_replicate, smul_eq_mul]
  · have hidx : c * L + m + r = c * L + (m + r) := by ring
    rw [rasterBuffer, hidx,
      flatten_getD _ L hlens c (m + r) (by simpa using hc) (by omega),
      rasterBuffer_chunk tbl img mw c hc, columnBytes]
    rw [List.getD_append_right _ _ _ _ (by simp)]
    rw [List.length_replicate, Nat.add_sub_cancel_left]
    rw [List.getD_append _ _ _ _ (by simpa using hr)]
    exact getD_map_range _ _ _ hr
  · rw [rasterBuffer,
      flatten_getD _ L hlens c k (by simpa using hc) (by omega),
      rasterBuffer_chunk tbl img mw c hc, columnBytes]
    rw [List.getD_append _ _ _ _ (by simpa using hk)]
    exact getD_replicate_zero _ _ hk
  · have hidx : c * L + m + img.height + k = c * L + (m + (img.height + k)) := by
      ring
    rw [rasterBuffer, hidx,
      flatten_getD _ L hlens c (m + (img.height + k)) (by simpa using hc)
        (by omega),
      rasterBuffer_chunk tbl img mw c hc, columnBytes]
    rw [List.getD_append_right _ _ _ _ (by simp)]
    rw [List.length_replicate, Nat.add_sub_cancel_left]
    rw [List.getD_append_right _ _ _ _ (by simp)]
    simp only [List.length_map, List.length_range, Nat.add_sub_cancel_left]
    exact getD_replicate_zero _ _ hk

/-- Witness for claim C2 at a concrete 2 x 2 image with margin 3. -/
theorem claim_C2_witness :
    (rasterBuffer testTbl imgSquare 9).length = 2 * (2 * 3 + 2) ∧
    (rasterBuffer testTbl imgSquare 9).getD (1 * (2 * 3 + 2) + 3 + 1) 0 =
      (if pyTruthy (imgSquare.px 1 1) then 0xFF else 0x00) ∧
    (rasterBuffer testTbl imgSquare 9).getD (1 * (2 * 3 + 2) + 2) 0 = 0 ∧
    (rasterBuffer testTbl imgSquare 9).getD (1 * (2 * 3 + 2) + 3 + 2 + 2) 0 = 0 ∧
    raster_image testTbl imgSquare 9 =
      compress_buffer (rasterBuffer testTbl imgSquare 9) :=
  claim_C2 testTbl imgSquare 9 1 1 2 (by decide) (by decide) (by decide)

/-- The named printer conditions the error decoder can report (printer.py
lines 139-159), plus the unknown-error condition the specification names. -/
inductive Condition where
  | noMedia : Condition
  | cutterJam : Condition
  | lowBatteries : Condition
  | highVoltageAdapter : Condition
  | wrongMedia : Condition
  | coverOpen : Condition
  | overheating : Condition
  | unknownError : Condition
  deriving DecidableEq

/-- Embedding of the error-flag decoding of print_data (printer.py lines
139-159): the nested bit tests over error byte 1 and error byte 2, in source
order, collected as the ordered condition list that the raised message joins. -/
def decodeErrors (e1 e2 : Nat) : List Condition :=
  (if e1 ≠ 0 then
    (if e1 &&& 0x01 ≠ 0 then [Condition.noMedia] else []) ++
      ((if e1 &&& 0x04 ≠ 0 then [Condition.cutterJam] else []) ++
        ((if e1 &&& 0x08 ≠ 0 then [Condition.lowBatteries] else []) ++
          (if e1 &&& 0x40 ≠ 0 then [Condition.highVoltageAdapter] else [])))
  else []) ++
    (if e2 ≠ 0 then
      (if e2 &&& 0x01 ≠ 0 then [Condition.wrongMedia] else []) ++
        ((if e2 &&& 0x10 ≠ 0 then [Condition.coverOpen] else []) ++
          (if e2 &&& 0x20 ≠ 0 then [Condition.overheating] else []))
    else [])

/-- Status types the polling loop of print_data distinguishes; reply and
phase-change stand for every value other than the two the code compares
against. -/
inductive StatusType where
  | reply : StatusType
  | printingCompleted : StatusType
  | errorOccurred : StatusType
  | phaseChange : StatusType
  deriving DecidableEq

/-- Modelled from the spec: a status reply is a fixed-length frame whose
status type and two error bytes sit at fixed offsets given by the cmd module
(absent from src/); the frame is modelled by the three fields print_data
reads. -/
structure Reply where
  statusType : StatusType
  errorInfo1 : Nat
  errorInfo2 : Nat
  deriving DecidableEq

/-- One result of the read call inside the polling loop: an empty buffer or
a decoded reply. -/
inductive ReadResult where
  | empty : ReadResult
  | reply (r : Reply) : ReadResult
  deriving DecidableEq

/-- Errors that end a print session: the printer-reported condition list
(the RuntimeError of printer.py line 160), an exhausted read stream (the
read timeout), or a raster-encoding failure propagated from prepare_image or
raster_image. -/
inductive SessionError where
  | printerError (conditions : List Condition) : SessionError
  | readTimeout : SessionError
  | rasterFailure (e : RasterError) : SessionError
  deriving DecidableEq

/-- Embedding of the polling loop of print_data (printer.py lines 132-160)
over a finite stream of reads: empty reads and unrecognized status types
continue polling, a printing-completed reply absorbs one further read and
succeeds, an error reply fails with the decoded condition list, and an
exhausted stream is the read timeout. -/
def pollLoop : List ReadResult → Except SessionError (List ReadResult)
  | [] => .error .readTimeout
  | .empty :: rest => pollLoop rest
  | .reply r :: rest =>
    match r.statusType with
    | .printingCompleted =>
      match rest with
      | [] => .error .readTimeout
      | _ :: rest' => .ok rest'
    | .errorOccurred =>
      .error (.printerError (decodeErrors r.errorInfo1 r.errorInfo2))
    | _ => pollLoop rest

/-- The command frames print_data writes, modelled from the spec: the frame
builders live in the cmd module (absent from src/), so frames are tracked
symbolically; print_information carries the raster byte length and the media
width, and each raster line becomes one raster-line frame. -/
inductive Frame where
  | enterDynamicCommandMode : Frame
  | enableStatusNotification : Frame
  | printInformation (dataLength mediaWidth : Nat) : Frame
  | setMode : Frame
  | setAdvancedMode : Frame
  | marginAmount (px : Nat) : Frame
  | setCompressionMode : Frame
  | rasterLine (line : List Nat) : Frame
  | filler : Frame
  | printWithFeeding : Frame
  | printWithoutFeeding : Frame
  deriving DecidableEq

/-- The frame sequence print_data writes for one page (printer.py lines
112-131): the seven setup frames, one frame per raster line (the line
splitting of gen_raster_commands is a parameter, since it lives in the cmd
module absent from src/), six 0x5A filler bytes, and the terminal print
command selected by is_last_page. -/
def print_data_frames (genLines : List Nat → List (List Nat)) (mw : Nat)
    (data : List Nat) (margin_px : Nat) (is_last_page : Bool) : List Frame :=
  [Frame.enterDynamicCommandMode, Frame.enableStatusNotification,
    Frame.printInformation data.length mw, Frame.setMode, Frame.setAdvancedMode,
    Frame.marginAmount margin_px, Frame.setCompressionMode]
  ++ (genLines data).map Frame.rasterLine
  ++ List.replicate 6 Frame.filler
  ++ [if is_last_page then Frame.printWithFeeding else Frame.printWithoutFeeding]

/-- Embedding of print_data (printer.py lines 112-160): the written frames
together with the outcome of the polling loop on the given read stream. -/
def print_data (genLines : List Nat → List (List Nat)) (mw : Nat)
    (data : List Nat) (margin_px : Nat) (is_last_page : Bool)
    (reads : List ReadResult) :
    List Frame × Except SessionError (List ReadResult) :=
  (print_data_frames genLines mw data margin_px is_last_page, pollLoop reads)

/-- Embedding of the page loop of print_images (printer.py lines 164-172):
each page is prepared and rasterized against the shared media width, then
submitted with is_last_page exactly when the decremented page counter
reaches zero. -/
def print_images_go (tbl : MediaTable) (luma : Nat → Nat → Nat → Nat)
    (genLines : List Nat → List (List Nat)) (mw margin_px : Nat) :
    List Image → Nat → List ReadResult →
      List Frame × Except SessionError (List ReadResult)
  | [], _, reads => ([], .ok reads)
  | img :: rest, pages_left, reads =>
    match prepare_image tbl luma img mw with
    | .error e => ([], .error (.rasterFailure e))
    | .ok prepared =>
      match raster_image tbl prepared mw with
      | .error e => ([], .error (.rasterFailure e))
      | .ok data =>
        let pl := pages_left - 1
        let step := print_data genLines mw data margin_px (pl == 0) reads
        match step.2 with
        | .error e => (step.1, .error e)
        | .ok reads' =>
          let next := print_images_go tbl luma genLines mw margin_px rest pl reads'
          (step.1 ++ next.1, next.2)

/-- Embedding of print_images (printer.py lines 162-172): the page counter
starts at the number of pages. -/
def print_images (tbl : MediaTable) (luma : Nat → Nat → Nat → Nat)
    (genLines : List Nat → List (List Nat)) (mw margin_px : Nat)
    (images : List Image) (reads : List ReadResult) :
    List Frame × Except SessionError (List ReadResult) :=
  print_images_go tbl luma genLines mw margin_px images images.length reads

/-- The two terminal print commands of a page. -/
def isTerminalFrame : Frame → Bool
  | Frame.printWithFeeding => true
  | Frame.printWithoutFeeding => true
  | _ => false

/-- The bit of the two error bytes that corresponds to each named condition,
as the specification tabulates them. -/
def condBit (e1 e2 : Nat) : Condition → Bool
  | Condition.noMedia => e1 &&& 0x01 != 0
  | Condition.cutterJam => e1 &&& 0x04 != 0
  | Condition.lowBatteries => e1 &&& 0x08 != 0
  | Condition.highVoltageAdapter => e1 &&& 0x40 != 0
  | Condition.wrongMedia => e2 &&& 0x01 != 0
  | Condition.coverOpen => e2 &&& 0x10 != 0
  | Condition.overheating => e2 &&& 0x20 != 0
  | Condition.unknownError => false

/-- The order the specification fixes for the reported conditions: byte 1
bits low to high, then byte 2 bits low to high. -/
def conditionOrder : List Condition :=
  [Condition.noMedia, Condition.cutterJam, Condition.lowBatteries,
    Condition.highVoltageAdapter, Condition.wrongMedia, Condition.coverOpen,
    Condition.overheating]

lemma filter_cons_ite {α : Type} (p : α → Bool) (c : α) (l : List α) :
    (c :: l).filter p = (if p c = true then [c] else []) ++ l.filter p := by
  by_cases h : p c = true <;> simp [List.filter_cons, h]

lemma decodeErrors_eq_filter (e1 e2 : Nat) :
    decodeErrors e1 e2 = conditionOrder.filter (condBit e1 e2) := by
  by_cases h1 : e1 = 0 <;> by_cases h2 : e2 = 0 <;>
    simp [decodeErrors, conditionOrder, condBit, filter_cons_ite, h1, h2]

/-- Claim C6: in a status reply with status type ERROR_OCCURRED, the
reported condition list is exactly the conditions whose bits are set, in the
fixed order byte 1 bits low to high then byte 2 bits low to high; all set
bits are reported, not just the first. -/
theorem claim_C6 (e1 e2 : Nat) (rest : List ReadResult) :
    pollLoop (ReadResult.reply ⟨StatusType.errorOccurred, e1, e2⟩ :: rest) =
      .error (.printerError (conditionOrder.filter (condBit e1 e2))) ∧
    ∀ c, c ∈ decodeErrors e1 e2 ↔ condBit e1 e2 c = true := by
  have hdec := decodeErrors_eq_filter e1 e2
  constructor
  · have hred : pollLoop
        (ReadResult.reply ⟨StatusType.errorOccurred, e1, e2⟩ :: rest) =
        .error (.printerError (decodeErrors e1 e2)) := rfl
    rw [hred, hdec]
  · intro c
    rw [hdec, List.mem_filter]
    constructor
    · rintro ⟨_, hb⟩
      exact hb
    · intro hb
      refine ⟨?_, hb⟩
      cases c <;> simp_all [conditionOrder, condBit]

/-- Counterexample to claim C7 as stated: with both error bytes zero the
source reports the empty condition list, not the unknown-error condition the
specification names. -/
theorem claim_C7_counterexample :
    decodeErrors 0 0 = [] ∧ decodeErrors 0 0 ≠ [Condition.unknownError] := by
  decide

/-- Claim C7 (amended): a status reply with status type ERROR_OCCURRED and
both error bytes zero fails the session with an empty condition list (no
unknown-error condition is synthesized); the session still ends in an error,
not in completion. -/
theorem claim_C7 (rest : List ReadResult) :
    pollLoop (ReadResult.reply ⟨StatusType.errorOccurred, 0, 0⟩ :: rest) =
      .error (.printerError []) := rfl

lemma filter_print_data_frames (genLines : List Nat → List (List Nat))
    (mw : Nat) (data : List Nat) (margin_px : Nat) (is_last : Bool) :
    (print_data_frames genLines mw data margin_px is_last).filter
        isTerminalFrame =
      [if is_last then Frame.printWithFeeding else Frame.printWithoutFeeding] := by
  have hmap : ((genLines data).map Frame.rasterLine).filter isTerminalFrame
      = [] := by
    rw [List.filter_map]
    have hcomp : isTerminalFrame ∘ Frame.rasterLine = fun _ => false := rfl
    rw [hcomp, List.filter_false, List.map_nil]
  cases is_last <;>
    simp [print_data_frames, List.filter_append, hmap, isTerminalFrame,
      List.filter_cons, List.replicate]

lemma print_images_go_filter (tbl : MediaTable) (luma : Nat → Nat → Nat → Nat)
    (genLines : List Nat → List (List Nat)) (mw margin_px : Nat) :
    ∀ (images : List Image) (reads : List ReadResult)
      (trace : List Frame) (rest : List ReadResult),
      images ≠ [] →
      print_images_go tbl luma genLines mw margin_px images images.length reads
        = (trace, .ok rest) →
      trace.filter isTerminalFrame =
        List.replicate (images.length - 1) Frame.printWithoutFeeding ++
          [Frame.printWithFeeding] := by
  intro images
  induction images with
  | nil => intro reads trace rest hne _; exact absurd rfl hne
  | cons img imgs ih =>
    intro reads trace rest _ h
    simp only [print_images_go, List.length_cons, Nat.add_sub_cancel] at h
    cases hprep : prepare_image tbl luma img mw with
    | error e => rw [hprep] at h; simp at h
    | ok prepared =>
      rw [hprep] at h
      simp only [] at h
      cases hrast : raster_image tbl prepared mw with
      | error e => rw [hrast] at h; simp at h
      | ok data =>
        rw [hrast] at h
        simp only [] at h
        simp only [print_data] at h
        cases hpoll : pollLoop reads with
        | error e => rw [hpoll] at h; simp at h
        | ok reads' =>
          rw [hpoll] at h
          simp only [] at h
          cases imgs with
          | nil =>
            simp only [print_images_go] at h
            have htr : trace =
                print_data_frames genLines mw data margin_px true := by
              have hfst := congrArg Prod.fst h
              simpa using hfst.symm
            rw [htr, filter_print_data_frames]
            rfl
          | cons img' imgs' =>
            have hlen : ((img' :: imgs').length == 0) = false := by simp
            rw [hlen] at h
            cases hrec : print_images_go tbl luma genLines mw margin_px
                (img' :: imgs') (img' :: imgs').length reads' with
            | mk t2 r2 =>
              rw [hrec] at h
              simp only [] at h
              cases r2 with
              | error e => simp at h
              | ok rest2 =>
                have htr : trace =
                    print_data_frames genLines mw data margin_px false ++ t2 := by
                  have hfst := congrArg Prod.fst h
                  simpa using hfst.symm
                have hfilter2 := ih reads' t2 rest2 (by simp) hrec
                rw [htr, List.filter_append, filter_print_data_frames, hfilter2]
                have hrepl : List.replicate ((img :: img' :: imgs').length - 1)
                    Frame.printWithoutFeeding =
                    Frame.printWithoutFeeding ::
                      List.replicate ((img' :: imgs').length - 1)
                        Frame.printWithoutFeeding := by
                  have hlen2 : (img :: img' :: imgs').length - 1 =
                      ((img' :: imgs').length - 1) + 1 := by simp
                  rw [hlen2, List.replicate_succ]
                rw [hrepl]
                simp

/-- Claim C5: for a print job of at least one page, the pages are
transmitted in their given order and pages 1 through n-1 are each terminated
with the non-feeding print command while page n is terminated with the
feeding print command: the terminal frames of the whole written trace are
n-1 non-feeding commands followed by one feeding command. -/
theorem claim_C5 (tbl : MediaTable) (luma : Nat → Nat → Nat → Nat)
    (genLines : List Nat → List (List Nat)) (mw margin_px : Nat)
    (images : List Image) (reads : List ReadResult)
    (trace : List Frame) (rest : List ReadResult)
    (h1 : 1 ≤ images.length)
    (h2 : print_images tbl luma genLines mw margin_px images reads =
      (trace, .ok rest)) :
    trace.filter isTerminalFrame =
      List.replicate (images.length - 1) Frame.printWithoutFeeding ++
        [Frame.printWithFeeding] := by
  have hne : images ≠ [] := by
    intro hnil
    rw [hnil] at h1
    simp at h1
  exact print_images_go_filter tbl luma genLines mw margin_px images reads
    trace rest hne h2

/-- A concrete line splitter used by the witnesses: the whole raster buffer
as one line. -/
def testGenLines : List Nat → List (List Nat) := fun d => [d]

/-- A concrete read stream used by the witnesses: one printing-completed
reply followed by the phase-change read it absorbs. -/
def testReads : List ReadResult :=
  [ReadResult.reply ⟨StatusType.printingCompleted, 0, 0⟩, ReadResult.empty]

/-- Witness for claim C5 at a concrete one-page job. -/
theorem claim_C5_witness :
    (print_images testTbl testLuma testGenLines 9 0 [imgSquare]
        testReads).1.filter isTerminalFrame =
      List.replicate (([imgSquare].length) - 1) Frame.printWithoutFeeding ++
        [Frame.printWithFeeding] :=
  claim_C5 testTbl testLuma testGenLines 9 0 [imgSquare] testReads
    (print_images testTbl testLuma testGenLines 9 0 [imgSquare] testReads).1 []
    (by decide) (by decide)

/-- Outcome of the transport write loop: the loop returned the cumulative
length, raised the timeout RuntimeError, or failed to terminate within the
given fuel. -/
inductive WriteResult where
  | completed (length : Nat) : WriteResult
  | timeoutRaised : WriteResult
  | outOfFuel : WriteResult
  deriving DecidableEq

/-- Embedding of the while loop of the private write method of BrotherPt
(printer.py lines 67-74).  The device is modelled by the external usb write
call as a function from the call index to the byte count it reports written.
Each iteration slices the next chunk of at most 0x40 bytes, adds the
reported count to the cumulative length, and raises the timeout error only
when that cumulative length is zero.  Fuel bounds the unbounded while loop;
running out of fuel marks non-termination within the bound.  The returned
chunk list records what was passed to the device. -/
def writeLoop (writer : Nat → Nat) (data : List Nat) :
    Nat → Nat → Nat → List (List Nat) × WriteResult
  | 0, _, _ => ([], .outOfFuel)
  | fuel + 1, k, length =>
    if length < data.length then
      let chunk := (data.drop length).take 0x40
      let written := length + writer k
      if written = 0 then ([chunk], .timeoutRaised)
      else
        let next := writeLoop writer data fuel (k + 1) written
        (chunk :: next.1, next.2)
    else ([], .completed length)

/-- Embedding of the write method entry: the loop starts at call index 0 with
cumulative length 0. -/
def write (writer : Nat → Nat) (data : List Nat) (fuel : Nat) :
    List (List Nat) × WriteResult :=
  writeLoop writer data fuel 0 0

/-- Every chunk handed to the device has at most 0x40 bytes, the fixed
maximum packet size. -/
lemma writeLoop_chunk_size (writer : Nat → Nat) (data : List Nat) :
    ∀ fuel k length, ∀ c ∈ (writeLoop writer data fuel k length).1,
      c.length ≤ 0x40 := by
  intro fuel
  induction fuel with
  | zero => intro k length c hc; simp [writeLoop] at hc
  | succ fuel ih =>
    intro k length c hc
    by_cases hlt : length < data.length
    · rw [writeLoop, if_pos hlt] at hc
      by_cases hz : length + writer k = 0
      · rw [if_pos hz] at hc
        simp at hc
        simp [hc, List.length_take]
      · rw [if_neg hz] at hc
        simp only [List.mem_cons] at hc
        rcases hc with rfl | hc
        · simp [List.length_take]
        · exact ih (k + 1) (length + writer k) c hc
    · rw [writeLoop, if_neg hlt] at hc
      simp at hc

/-- The zero-write detection does fire on the first chunk: a device that
reports zero bytes written on the very first call makes the loop raise the
timeout error. -/
lemma write_first_call_zero (writer : Nat → Nat) (data : List Nat) (fuel : Nat)
    (hw : writer 0 = 0) (hne : data ≠ []) :
    (write writer data (fuel + 1)).2 = WriteResult.timeoutRaised := by
  have hlt : 0 < data.length := List.length_pos.mpr hne
  rw [write, writeLoop, if_pos hlt]
  simp [hw]

/-- The device used by the failing input of claim C9: the first call accepts
a full 0x40-byte chunk, every later call reports zero bytes written. -/
def stallingWriter : Nat → Nat :=
  fun k => if k = 0 then 0x40 else 0

/-- The failing input of claim C9: a 65-byte buffer, one byte longer than
the maximum packet size. -/
def data65 : List Nat := List.replicate 65 0

lemma writeLoop_stalls (fuel : Nat) :
    ∀ k, 1 ≤ k →
      (writeLoop stallingWriter data65 fuel k 0x40).2 = WriteResult.outOfFuel := by
  induction fuel with
  | zero => intro k _; rfl
  | succ fuel ih =>
    intro k hk
    have hlt : 0x40 < data65.length := by decide
    have hwr : stallingWriter k = 0 := by
      simp [stallingWriter]
      omega
    rw [writeLoop, if_pos hlt]
    simp only [hwr, Nat.add_zero]
    rw [if_neg (by omega)]
    exact ih (k + 1) (by omega)

/-- Claim C9: on the 65-byte buffer, against a device that accepts the first
0x40-byte chunk and then reports zero bytes written on every later call, the
write loop never raises the timeout error for any amount of fuel - the
cumulative-length check only detects a zero-byte write on the first chunk,
and the loop spins forever on a later one, contradicting the claim that a
zero-byte write at any point fails with the timeout error. -/
theorem claim_C9 :
    ∀ fuel, (write stallingWriter data65 fuel).2 = WriteResult.outOfFuel := by
  intro fuel
  cases fuel with
  | zero => rfl
  | succ fuel =>
    have hlt : 0 < data65.length := by decide
    rw [write, writeLoop, if_pos hlt]
    have hwr : (0 : Nat) + stallingWriter 0 = 0x40 := by decide
    simp only [hwr]
    rw [if_neg (by omega)]
    exact writeLoop_stalls fuel 1 (by omega)

end BrotherPt
